import Mathlib

/-!
Verification of the incremental retrieval-and-cache reconciliation logic of
the historical-asset-prices repository.

The consolidated reconciler lives in `src/prices/base.py`
(`BasePrices.retrieve_prices`) on top of the cache/fetch helpers of
`src/utils.py` (`get_file_from_s3`, `get_flat_file_path`,
`save_flat_file_bytes`, `create_empty_marker`, `compute_file_md5`,
`with_retry`).  Days are modelled as natural numbers, file contents as lists
of bytes, and the MD5 content fingerprint as an arbitrary function
`h : Bytes -> Fingerprint` (the remote S3 ETag of an object is the same
function of its bytes, which is the assumption the code's conditional GET
relies on).
-/

/-- Raw file contents (a compressed flat file), modelled as a byte list. -/
abbrev Bytes := List Nat

/-- A content fingerprint (MD5 hash / S3 ETag). -/
abbrev Fingerprint := List Nat

/-- The triple returned by `utils.get_file_from_s3`:
`(bytes or None, ETag or None, file_exists)`. -/
structure FetchReply where
  bytes : Option Bytes
  etag : Option Fingerprint
  existsInS3 : Bool
  deriving Repr, DecidableEq

/-- Embedding of `utils.get_file_from_s3` (src/src/utils.py lines 134-192).
The remote object for the requested key is `remoteObj` (`none` when S3 has no
object: 404 / NoSuchKey).  When `if_none_match` is supplied and matches the
object's ETag, S3 answers 304 Not Modified and the function returns
`(None, None, True)`; a 404 returns `(None, None, False)`; otherwise the bytes
are downloaded and returned with their ETag. -/
def get_file_from_s3 (h : Bytes → Fingerprint) (remoteObj : Option Bytes)
    (if_none_match : Option Fingerprint) : FetchReply :=
  match remoteObj with
  | none => ⟨none, none, false⟩
  | some b =>
    match if_none_match with
    | some t => if t = h b then ⟨none, none, true⟩ else ⟨some b, some (h b), true⟩
    | none => ⟨some b, some (h b), true⟩

/-- The on-disk cache state of one day at its flat-file location
`files/{asset_type}/{YYYY-MM-DD}.csv.gz`: the raw file's contents if that
file exists, and whether the sibling `.empty` marker exists. -/
structure DayCache where
  raw : Option Bytes
  marker : Bool
  deriving Repr, DecidableEq

/-- Counters and observable effects of (part of) a retrieval run:
the `downloaded`/`updated`/`skipped` counters of
`BasePrices.retrieve_prices`, the number of filesystem writes performed
(`save_flat_file_bytes` calls plus `create_empty_marker` calls), and the
list of S3 requests issued, each recorded as the `if_none_match`
fingerprint it carried. -/
structure RunStats where
  downloaded : Nat
  updated : Nat
  skipped : Nat
  writes : Nat
  requests : List (Option Fingerprint)
  deriving Repr, DecidableEq

/-- The all-zero statistics of a run that did nothing. -/
def RunStats.zero : RunStats := ⟨0, 0, 0, 0, []⟩

/-- Sequential composition of run statistics. -/
def RunStats.add (a b : RunStats) : RunStats :=
  ⟨a.downloaded + b.downloaded, a.updated + b.updated, a.skipped + b.skipped,
   a.writes + b.writes, a.requests ++ b.requests⟩

/-- Embedding of one iteration of the day loop of
`BasePrices.retrieve_prices` (src/src/prices/base.py lines 81-138) for a
single day: compute the local ETag (MD5 of the cached file when it exists),
issue the (conditional) GET, then follow the `if/elif` chain:
304 increments `skipped`; 404 creates the empty marker unless it already
exists; downloaded bytes are saved, incrementing `updated` when a local file
existed and `downloaded` otherwise. -/
def reconcileDay (h : Bytes → Fingerprint) (remoteObj : Option Bytes)
    (c : DayCache) : DayCache × RunStats :=
  let local_etag := c.raw.map h
  let r := get_file_from_s3 h remoteObj local_etag
  if r.bytes = none ∧ r.existsInS3 then
    (c, ⟨0, 0, 1, 0, [local_etag]⟩)
  else if r.existsInS3 = false then
    if c.marker then (c, ⟨0, 0, 0, 0, [local_etag]⟩)
    else ({ c with marker := true }, ⟨0, 0, 0, 1, [local_etag]⟩)
  else
    match r.bytes with
    | some b =>
      if c.raw.isSome then ({ c with raw := some b }, ⟨0, 1, 0, 1, [local_etag]⟩)
      else ({ c with raw := some b }, ⟨1, 0, 0, 1, [local_etag]⟩)
    | none => (c, ⟨0, 0, 0, 0, [local_etag]⟩)

/-- The whole local cache: one `DayCache` per day number. -/
abbrev Cache := Nat → DayCache

/-- The cache of a fresh checkout: no raw files, no markers. -/
def initialCache : Cache := fun _ => ⟨none, false⟩

/-- The remote store: for each day, the flat-file object stored in S3 for
that day's key, or `none` when no object exists (weekend/holiday). -/
abbrev Remote := Nat → Option Bytes

/-- Reconcile a list of days in order, threading the cache and accumulating
run statistics (the body of the `while current_day < self.date_end` loop). -/
def runDays (h : Bytes → Fingerprint) (remote : Remote) (cache : Cache) :
    List Nat → Cache × RunStats
  | [] => (cache, RunStats.zero)
  | d :: rest =>
    let step := reconcileDay h (remote d) (cache d)
    let cache' : Cache := fun x => if x = d then step.1 else cache x
    let tail := runDays h remote cache' rest
    (tail.1, step.2.add tail.2)

/-- Embedding of `BasePrices.retrieve_prices` (src/src/prices/base.py
lines 53-144): if the (effective) start date is not before the end date the
method returns immediately; otherwise every day of
`[date_start, date_end)` is reconciled in increasing order. -/
def retrieve_prices (h : Bytes → Fingerprint) (remote : Remote)
    (date_start date_end : Nat) (cache : Cache) : Cache × RunStats :=
  if date_start ≥ date_end then (cache, RunStats.zero)
  else runDays h remote cache (List.range' date_start (date_end - date_start))

/-- Embedding of the date arithmetic of `BasePrices.__init__`
(src/src/prices/base.py line 32): the effective start date is
`max(date_start, self.available_from)`. -/
def effective_start (date_start available_from : Nat) : Nat :=
  max date_start available_from

/-- Iterate full retrieval runs (the same series, the same remote) `n`
times starting from `cache`. -/
def runN (h : Bytes → Fingerprint) (remote : Remote)
    (date_start date_end : Nat) (cache : Cache) : Nat → Cache
  | 0 => cache
  | n + 1 => (retrieve_prices h remote date_start date_end
      (runN h remote date_start date_end cache n)).1

/-! ## Basic facts about a single day's reconciliation -/

/-- A day's cache entry agrees with the remote up to fingerprints: a cached
raw file whose MD5 equals the remote object's ETag, or (for a day with no
remote object) an existing empty marker.  This is the per-day postcondition
a completed run establishes. -/
def dayReconciled (h : Bytes → Fingerprint) (c : DayCache)
    (r : Option Bytes) : Prop :=
  match r with
  | some b => ∃ f, c.raw = some f ∧ h f = h b
  | none => c.marker = true

theorem reconcileDay_establishes (h : Bytes → Fingerprint)
    (r : Option Bytes) (c : DayCache) :
    dayReconciled h (reconcileDay h r c).1 r := by
  cases r with
  | none =>
    cases c with
    | mk raw marker =>
      cases marker <;> simp [reconcileDay, get_file_from_s3, dayReconciled]
  | some b =>
    cases c with
    | mk raw marker =>
      cases raw with
      | none =>
        simp [reconcileDay, get_file_from_s3, dayReconciled]
      | some f =>
        by_cases hf : h f = h b <;>
          simp [reconcileDay, get_file_from_s3, dayReconciled, hf]

theorem reconcileDay_of_reconciled (h : Bytes → Fingerprint)
    (r : Option Bytes) (c : DayCache) (hrec : dayReconciled h c r) :
    reconcileDay h r c =
      (c, ⟨0, 0, if r.isSome then 1 else 0, 0, [c.raw.map h]⟩) := by
  cases r with
  | none =>
    simp only [dayReconciled] at hrec
    simp [reconcileDay, get_file_from_s3, hrec]
  | some b =>
    simp only [dayReconciled] at hrec
    obtain ⟨f, hraw, hfb⟩ := hrec
    simp [reconcileDay, get_file_from_s3, hraw, hfb]

/-! ## Claim C1 -/

/-- C1, counterexample.  The claim says a `CachedEmpty` day (empty marker
present, no raw file) is reconciled with no network call and a `skipped`
increment.  The code of `BasePrices.retrieve_prices` never consults the
empty marker before fetching: at the concrete input (marker present, no raw
file, remote still has no object) it issues exactly one S3 request (an
unconditional GET) and leaves `skipped` at 0. -/
theorem C1_counterexample :
    (reconcileDay id none ⟨none, true⟩).2.requests.length = 1 ∧
    (reconcileDay id none ⟨none, true⟩).2.skipped = 0 := by decide

/-- C1, amended: for a day in `CachedEmpty` state the reconciler still
issues exactly one (unconditional, `if_none_match = None`) network call;
when the remote still reports no object, no counter is incremented, no
write is performed, and the cache is unchanged. -/
theorem C1_cached_empty_day (h : Bytes → Fingerprint) (c : DayCache)
    (hraw : c.raw = none) (hmk : c.marker = true) :
    reconcileDay h none c = (c, ⟨0, 0, 0, 0, [none]⟩) := by
  cases c with
  | mk raw marker =>
    cases hraw
    cases hmk
    simp [reconcileDay, get_file_from_s3]

/-- C1 witness: the amended statement at the concrete `CachedEmpty` state. -/
theorem C1_witness :
    reconcileDay id none ⟨none, true⟩ = (⟨none, true⟩, ⟨0, 0, 0, 0, [none]⟩) :=
  C1_cached_empty_day id ⟨none, true⟩ rfl rfl

/-! ## Claim C4 -/

/-- C4: for a day with a locally cached raw file `f`, the reconciler issues
a conditional fetch whose `if_none_match` is the local fingerprint `h f`;
if the remote object's fingerprint matches (304 Not Modified) the cache is
untouched, nothing is written and `skipped` is incremented by one; if the
remote fingerprint differs, the downloaded bytes overwrite the cached file
and `updated` is incremented by one. -/
theorem C4_conditional_fetch (h : Bytes → Fingerprint) (c : DayCache)
    (f b : Bytes) (hraw : c.raw = some f) :
    (reconcileDay h (some b) c).2.requests = [some (h f)] ∧
    (h b = h f →
      reconcileDay h (some b) c = (c, ⟨0, 0, 1, 0, [some (h f)]⟩)) ∧
    (h b ≠ h f →
      reconcileDay h (some b) c =
        ({ c with raw := some b }, ⟨0, 1, 0, 1, [some (h f)]⟩)) := by
  cases c with
  | mk raw marker =>
    cases hraw
    refine ⟨?_, ?_, ?_⟩
    · by_cases hfb : h f = h b <;>
        simp [reconcileDay, get_file_from_s3, hfb]
    · intro hbf
      simp [reconcileDay, get_file_from_s3, hbf.symm]
    · intro hbf
      have hfb : ¬ h f = h b := fun hh => hbf hh.symm
      simp [reconcileDay, get_file_from_s3, hfb]

/-- C4 witness: both branches at concrete inputs, via `C4_conditional_fetch`
(fingerprint function `id`, cached file `[1]`, remote `[1]` resp. `[2]`). -/
theorem C4_witness :
    reconcileDay id (some [1]) ⟨some [1], false⟩ =
      (⟨some [1], false⟩, ⟨0, 0, 1, 0, [some [1]]⟩) ∧
    reconcileDay id (some [2]) ⟨some [1], false⟩ =
      (⟨some [2], false⟩, ⟨0, 1, 0, 1, [some [1]]⟩) :=
  ⟨(C4_conditional_fetch id ⟨some [1], false⟩ [1] [1] rfl).2.1 rfl,
   (C4_conditional_fetch id ⟨some [1], false⟩ [1] [2] rfl).2.2 (by decide)⟩

/-! ## Claim C6 -/

/-- C6: when the remote reports that the day's object does not exist, the
reconciler ensures the `CachedEmpty` marker, raises no error (the step is a
total function into a cache/statistics pair), and increments neither
`downloaded` nor `updated` (nor `skipped`); when the marker already exists
the step is a no-op: the cache is returned unchanged and zero writes are
performed. -/
theorem C6_not_found_day (h : Bytes → Fingerprint) (c : DayCache) :
    reconcileDay h none c =
      ({ c with marker := true },
       ⟨0, 0, 0, if c.marker then 0 else 1, [c.raw.map h]⟩) := by
  cases c with
  | mk raw marker =>
    cases marker <;> simp [reconcileDay, get_file_from_s3]

/-! ## Claim C8 -/

/-- C8: the effective start date is `max(requested_start, availability_floor)`
(the assignment in `BasePrices.__init__`), and whenever the effective start
is at or past the end date, `retrieve_prices` returns immediately: the cache
is unmodified and no fetch request is issued (the run statistics are all
zero with an empty request list). -/
theorem C8_availability_floor (h : Bytes → Fingerprint) (remote : Remote)
    (requested floor date_end : Nat) (cache : Cache)
    (hge : effective_start requested floor ≥ date_end) :
    effective_start requested floor = max requested floor ∧
    retrieve_prices h remote (effective_start requested floor) date_end cache =
      (cache, RunStats.zero) := by
  refine ⟨rfl, ?_⟩
  simp [retrieve_prices, hge]

/-- C8 witness: requesting `[5, 8)` with availability floor 10 gives
effective start 10 ≥ 8, so retrieval is a no-op on a concrete cache. -/
theorem C8_witness :
    effective_start 5 10 = max 5 10 ∧
    retrieve_prices id (fun _ => some [1]) (effective_start 5 10) 8
        initialCache = (initialCache, RunStats.zero) :=
  C8_availability_floor id (fun _ => some [1]) 5 10 8 initialCache (by decide)

/-! ## Run-level lemmas -/

theorem runDays_untouched (h : Bytes → Fingerprint) (remote : Remote)
    (cache : Cache) (days : List Nat) (d : Nat) (hd : d ∉ days) :
    (runDays h remote cache days).1 d = cache d := by
  induction days generalizing cache with
  | nil => rfl
  | cons a rest ih =>
    have hda : d ≠ a := fun hh => hd (hh ▸ List.mem_cons_self a rest)
    have hdr : d ∉ rest := fun hh => hd (List.mem_cons_of_mem a hh)
    simp only [runDays]
    rw [ih _ hdr]
    simp [hda]

theorem runDays_of_reconciled (h : Bytes → Fingerprint) (remote : Remote)
    (cache : Cache) (days : List Nat)
    (hrec : ∀ d ∈ days, dayReconciled h (cache d) (remote d)) :
    (runDays h remote cache days).1 = cache ∧
    (runDays h remote cache days).2.downloaded = 0 ∧
    (runDays h remote cache days).2.updated = 0 ∧
    (runDays h remote cache days).2.writes = 0 ∧
    (runDays h remote cache days).2.skipped =
      days.countP (fun d => (remote d).isSome) := by
  induction days generalizing cache with
  | nil => simp [runDays, RunStats.zero]
  | cons a rest ih =>
    have hstep := reconcileDay_of_reconciled h (remote a) (cache a)
      (hrec a (List.mem_cons_self a rest))
    have hcache : (fun x => if x = a then cache a else cache x) = cache := by
      funext x
      by_cases hx : x = a
      · subst hx
        simp
      · simp [hx]
    simp only [runDays, hstep, Prod.fst, hcache]
    have ihr := ih cache (fun d hd => hrec d (List.mem_cons_of_mem a hd))
    refine ⟨ihr.1, ?_, ?_, ?_, ?_⟩ <;>
      simp [RunStats.add, ihr.2.1, ihr.2.2.1, ihr.2.2.2.1, ihr.2.2.2.2,
        List.countP_cons, Nat.add_comm]

theorem runDays_establishes (h : Bytes → Fingerprint) (remote : Remote)
    (cache : Cache) (days : List Nat) (hnd : days.Nodup) :
    ∀ d ∈ days, dayReconciled h ((runDays h remote cache days).1 d) (remote d) := by
  induction days generalizing cache with
  | nil => intro d hd; cases hd
  | cons a rest ih =>
    have hna : a ∉ rest := (List.nodup_cons.mp hnd).1
    have hnr : rest.Nodup := (List.nodup_cons.mp hnd).2
    intro d hd
    rcases List.mem_cons.mp hd with hda | hdr
    · subst hda
      simp only [runDays]
      rw [runDays_untouched h remote _ rest d hna]
      simpa using reconcileDay_establishes h (remote d) (cache d)
    · simp only [runDays]
      exact ih _ hnr d hdr

theorem retrieve_prices_establishes (h : Bytes → Fingerprint) (remote : Remote)
    (date_start date_end : Nat) (cache : Cache) :
    ∀ d, date_start ≤ d → d < date_end →
      dayReconciled h ((retrieve_prices h remote date_start date_end cache).1 d)
        (remote d) := by
  intro d hs he
  have hlt : date_start < date_end := Nat.lt_of_le_of_lt hs he
  have hmem : d ∈ List.range' date_start (date_end - date_start) := by
    rw [List.mem_range'_1]
    exact ⟨hs, by omega⟩
  simp only [retrieve_prices, Nat.not_le.mpr hlt, ge_iff_le, if_neg (Nat.not_le.mpr hlt)]
  exact runDays_establishes h remote cache _
    (List.nodup_range' date_start (date_end - date_start)) d hmem

/-! ## Claim C2 -/

/-- C2, counterexample.  The claim says the second run over the same range
counts every day of the range as skipped.  Concretely, for the one-day range
`[0, 1)` with the remote holding no object for day 0 (a weekend), the first
run creates the empty marker; the second run reconciles that one day but its
`skipped` counter stays 0, because the empty-marker branch of
`retrieve_prices` increments nothing. -/
theorem C2_counterexample :
    (List.range' 0 (1 - 0)).length = 1 ∧
    (retrieve_prices id (fun _ => none) 0 1
      (retrieve_prices id (fun _ => none) 0 1 initialCache).1).2.skipped = 0 := by
  decide

/-- C2, amended: running `retrieve_prices` a second time over the same date
range with the remote unchanged leaves the on-disk cache identical to the
state after the first run and performs zero cache writes; the second run
counts exactly the days whose remote object exists (equivalently, the days
holding a cached raw file) as skipped, while confirmed-empty (marker) days
increment no counter. -/
theorem C2_second_run_idempotent (h : Bytes → Fingerprint) (remote : Remote)
    (date_start date_end : Nat) (cache : Cache) :
    (retrieve_prices h remote date_start date_end
        (retrieve_prices h remote date_start date_end cache).1).1 =
      (retrieve_prices h remote date_start date_end cache).1 ∧
    (retrieve_prices h remote date_start date_end
        (retrieve_prices h remote date_start date_end cache).1).2.writes = 0 ∧
    (retrieve_prices h remote date_start date_end
        (retrieve_prices h remote date_start date_end cache).1).2.downloaded = 0 ∧
    (retrieve_prices h remote date_start date_end
        (retrieve_prices h remote date_start date_end cache).1).2.updated = 0 ∧
    (retrieve_prices h remote date_start date_end
        (retrieve_prices h remote date_start date_end cache).1).2.skipped =
      (List.range' date_start (date_end - date_start)).countP
        (fun d => (remote d).isSome) := by
  by_cases hlt : date_start < date_end
  · have hrec : ∀ d ∈ List.range' date_start (date_end - date_start),
        dayReconciled h ((retrieve_prices h remote date_start date_end cache).1 d)
          (remote d) := by
      intro d hd
      rw [List.mem_range'_1] at hd
      exact retrieve_prices_establishes h remote date_start date_end cache d
        hd.1 (by omega)
    have hr := runDays_of_reconciled h remote
      (retrieve_prices h remote date_start date_end cache).1
      (List.range' date_start (date_end - date_start)) hrec
    have hne : ¬ date_start ≥ date_end := Nat.not_le.mpr hlt
    constructor
    · simp only [retrieve_prices, if_neg hne] at hr ⊢
      exact hr.1
    · simp only [retrieve_prices, if_neg hne] at hr ⊢
      exact ⟨hr.2.2.2.1, hr.2.1, hr.2.2.1, hr.2.2.2.2⟩
  · have hge : date_start ≥ date_end := Nat.not_lt.mp hlt
    have hz : date_end - date_start = 0 := by omega
    simp [retrieve_prices, hge, hz, RunStats.zero]

/-! ## Claim C3 -/

/-- Exactly one of {raw cache file, empty marker} exists for a day. -/
def exactlyOne (c : DayCache) : Prop :=
  (c.raw.isSome = true ∧ c.marker = false) ∨ (c.raw = none ∧ c.marker = true)

/-- A day's cache entry agrees with the remote's existence status: the raw
file exists iff the remote object does, and the marker exists iff it does
not.  Every day of a run over a fixed remote ends up in this shape when it
starts absent or already in this shape. -/
def dayMatches (c : DayCache) (r : Option Bytes) : Prop :=
  c.raw.isSome = r.isSome ∧ c.marker = r.isNone

theorem dayMatches_exactlyOne (c : DayCache) (r : Option Bytes)
    (hm : dayMatches c r) : exactlyOne c := by
  obtain ⟨h1, h2⟩ := hm
  cases r with
  | none =>
    right
    exact ⟨Option.not_isSome_iff_eq_none.mp (by simp [h1]), by simp [h2]⟩
  | some b =>
    left
    exact ⟨by simp [h1], by simp [h2]⟩

theorem reconcileDay_matches (h : Bytes → Fingerprint) (r : Option Bytes)
    (c : DayCache) (hc : dayMatches c r ∨ c = ⟨none, false⟩) :
    dayMatches (reconcileDay h r c).1 r := by
  rcases hc with ⟨h1, h2⟩ | heq
  · cases r with
    | none =>
      have hraw : c.raw = none := Option.not_isSome_iff_eq_none.mp (by simp [h1])
      have hmk : c.marker = true := by simpa using h2
      simp [reconcileDay, get_file_from_s3, dayMatches, hraw, hmk]
    | some b =>
      have hsome : c.raw.isSome = true := by simp [h1]
      obtain ⟨f, hraw⟩ := Option.isSome_iff_exists.mp hsome
      have hmk : c.marker = false := by simpa using h2
      by_cases hf : h f = h b <;>
        simp [reconcileDay, get_file_from_s3, dayMatches, hraw, hmk, hf]
  · subst heq
    cases r <;> simp [reconcileDay, get_file_from_s3, dayMatches]

theorem runDays_matches (h : Bytes → Fingerprint) (remote : Remote)
    (cache : Cache) (days : List Nat) (hnd : days.Nodup)
    (hpre : ∀ d ∈ days, dayMatches (cache d) (remote d) ∨ cache d = ⟨none, false⟩) :
    ∀ d ∈ days, dayMatches ((runDays h remote cache days).1 d) (remote d) := by
  induction days generalizing cache with
  | nil => intro d hd; cases hd
  | cons a rest ih =>
    have hna : a ∉ rest := (List.nodup_cons.mp hnd).1
    have hnr : rest.Nodup := (List.nodup_cons.mp hnd).2
    intro d hd
    rcases List.mem_cons.mp hd with hda | hdr
    · subst hda
      simp only [runDays]
      rw [runDays_untouched h remote _ rest d hna]
      simpa using reconcileDay_matches h (remote d) (cache d)
        (hpre d (by simp))
    · simp only [runDays]
      refine ih _ hnr ?_ d hdr
      intro d' hd'
      by_cases hd'a : d' = a
      · subst hd'a
        simp only [if_pos rfl]
        exact Or.inl (reconcileDay_matches h (remote d') (cache d')
          (hpre d' (by simp)))
      · simpa [hd'a] using hpre d' (List.mem_cons_of_mem a hd')

/-- After `n` full runs over a fixed remote starting from the absent cache,
every day of the effective range either matches the remote or is still
absent (it always matches once `n ≥ 1`). -/
theorem runN_matches (h : Bytes → Fingerprint) (remote : Remote)
    (date_start date_end : Nat) (n : Nat) :
    ∀ d, date_start ≤ d → d < date_end →
      dayMatches ((runN h remote date_start date_end initialCache n) d) (remote d) ∨
      (runN h remote date_start date_end initialCache n) d = ⟨none, false⟩ := by
  induction n with
  | zero => intro d _ _; right; rfl
  | succ k ih =>
    intro d hs he
    have hlt : date_start < date_end := Nat.lt_of_le_of_lt hs he
    have hne : ¬ date_start ≥ date_end := Nat.not_le.mpr hlt
    have hmem : d ∈ List.range' date_start (date_end - date_start) := by
      rw [List.mem_range'_1]
      exact ⟨hs, by omega⟩
    left
    simp only [runN, retrieve_prices, if_neg hne]
    refine runDays_matches h remote _ _
      (List.nodup_range' date_start (date_end - date_start)) ?_ d hmem
    intro d' hd'
    rw [List.mem_range'_1] at hd'
    exact ih d' hd'.1 (by omega)

/-- C3, counterexample.  The claim asserts raw-file/empty-marker mutual
exclusivity after every sequence of single-process reconciliation runs.
Concretely: starting from the absent cache, a first run over `[0, 1)`
downloads the remote object `[1]` for day 0; a second run during which the
remote no longer has an object for day 0 takes the 404 branch and creates
the empty marker without removing the raw file, leaving both present. -/
theorem C3_counterexample :
    ((retrieve_prices id (fun _ => none) 0 1
        (retrieve_prices id (fun _ => some [1]) 0 1 initialCache).1).1 0).raw =
      some [1] ∧
    ((retrieve_prices id (fun _ => none) 0 1
        (retrieve_prices id (fun _ => some [1]) 0 1 initialCache).1).1 0).marker =
      true := by
  decide

/-- C3, amended: for every day within the effective range, after any
positive number of single-process reconciliation runs that start from an
initially absent cache and reconcile against one fixed remote, exactly one
of {raw cache file, empty marker} exists for that day — never both, never
neither.  (If the remote's existence status for an already-reconciled day
changes between runs, both can come to exist, as the counterexample shows.) -/
theorem C3_mutual_exclusivity (h : Bytes → Fingerprint) (remote : Remote)
    (date_start date_end n d : Nat) (hn : 1 ≤ n)
    (hs : date_start ≤ d) (he : d < date_end) :
    exactlyOne ((runN h remote date_start date_end initialCache n) d) := by
  obtain ⟨k, rfl⟩ : ∃ k, n = k + 1 := ⟨n - 1, by omega⟩
  have hlt : date_start < date_end := Nat.lt_of_le_of_lt hs he
  have hne : ¬ date_start ≥ date_end := Nat.not_le.mpr hlt
  have hmem : d ∈ List.range' date_start (date_end - date_start) := by
    rw [List.mem_range'_1]
    exact ⟨hs, by omega⟩
  refine dayMatches_exactlyOne _ (remote d) ?_
  simp only [runN, retrieve_prices, if_neg hne]
  refine runDays_matches h remote _ _
    (List.nodup_range' date_start (date_end - date_start)) ?_ d hmem
  intro d' hd'
  rw [List.mem_range'_1] at hd'
  exact runN_matches h remote date_start date_end k d' hd'.1 (by omega)

/-- C3 witness: exactly-one holds concretely for day 0 after one run over
`[0, 1)` against a remote holding `[1]` for every day. -/
theorem C3_witness :
    exactlyOne ((runN id (fun _ => some [1]) 0 1 initialCache 1) 0) :=
  C3_mutual_exclusivity id (fun _ => some [1]) 0 1 1 0 (by decide) (by decide)
    (by decide)

/-! ## Claim C5: the retry policy (`utils.with_retry`, src/src/utils.py
lines 84-112, constants in src/src/constants.py lines 11-13).

`with_retry` wraps a callable with tenacity:
`stop=stop_after_attempt(max_retries)`,
`wait=wait_exponential(min=min_delay, max=max_delay)`,
`retry=retry_if_exception_type((ReadTimeoutError, MaxRetryError,
ConnectionError))`.  tenacity's default `reraise=False` means that when the
attempts are exhausted a `tenacity.RetryError` wrapping the last attempt is
raised, while a non-retryable exception is re-raised as itself after a
single call.  An attempt is modelled as a function from the (1-based)
attempt number to its outcome. -/

/-- Exception kinds reaching `with_retry`'s wrapper. -/
inductive ErrKind
  | readTimeoutError
  | maxRetryError
  | connectionError
  | clientError
  | runtimeError
  deriving Repr, DecidableEq

/-- The retry filter of `with_retry`:
`retry_if_exception_type((ReadTimeoutError, MaxRetryError, ConnectionError))`. -/
def isTransient : ErrKind → Bool
  | .readTimeoutError => true
  | .maxRetryError => true
  | .connectionError => true
  | .clientError => false
  | .runtimeError => false

/-- What ultimately propagates out of the wrapped call: the original
exception (non-retryable, re-raised on first occurrence), or tenacity's
`RetryError` wrapping the exception of the last attempt. -/
inductive PyFailure
  | raised (e : ErrKind)
  | retryExhausted (last : ErrKind)
  deriving Repr, DecidableEq

/-- Outcome of one attempt of the wrapped callable. -/
inductive Outcome (α : Type)
  | ok (a : α)
  | err (e : ErrKind)
  deriving Repr, DecidableEq

/-- `MIN_DELAY` from src/src/constants.py. -/
def MIN_DELAY : Nat := 1

/-- `MAX_DELAY` from src/src/constants.py. -/
def MAX_DELAY : Nat := 600

/-- `MAX_RETRIES` from src/src/constants.py. -/
def MAX_RETRIES : Nat := 100

/-- tenacity `wait_exponential(min=min_delay, max=max_delay)`: the sleep
after the k-th attempt (k is 1-based) is `multiplier * 2 ** k` (multiplier
defaults to 1) clamped into `[min, max]`. -/
def wait_exponential (min_delay max_delay k : Nat) : Nat :=
  max min_delay (min (2 ^ k) max_delay)

/-- The tenacity retry loop: attempt number `k`, `left` attempts still
allowed (`left = max_retries - k + 1`).  Returns the final result, the
number of calls made, and the list of backoff sleeps.  The `left = 0` case
is never reached from `with_retry` (which starts with `left = max_retries
≥ 1`). -/
def retryGo (f : Nat → Outcome α) (min_delay max_delay : Nat) :
    (k : Nat) → (left : Nat) → Except PyFailure α × Nat × List Nat
  | _, 0 => (.error (.retryExhausted .connectionError), 0, [])
  | k, 1 =>
    match f k with
    | .ok a => (.ok a, 1, [])
    | .err e =>
      if isTransient e then (.error (.retryExhausted e), 1, [])
      else (.error (.raised e), 1, [])
  | k, left + 2 =>
    match f k with
    | .ok a => (.ok a, 1, [])
    | .err e =>
      if isTransient e then
        let rest := retryGo f min_delay max_delay (k + 1) (left + 1)
        (rest.1, rest.2.1 + 1, wait_exponential min_delay max_delay k :: rest.2.2)
      else (.error (.raised e), 1, [])

/-- Embedding of `utils.with_retry`: run the wrapped callable under the
tenacity policy, starting at attempt 1 with `max_retries` attempts allowed.
Returns (result, number of calls, backoff sleeps). -/
def with_retry (f : Nat → Outcome α) (max_retries min_delay max_delay : Nat) :
    Except PyFailure α × Nat × List Nat :=
  retryGo f min_delay max_delay 1 max_retries

/-- A remote fetch that can fail (the value `with_retry`-wrapped
`get_file_from_s3` produces for a day: either a result or a propagating
failure). -/
abbrev RemoteE := Nat → Except PyFailure (Option Bytes)

/-- The day loop of `retrieve_prices` over a fallible fetch: a day whose
fetch raises aborts the whole run at that day (the exception propagates out
of the `while` loop), returning the failure together with the cache as it
was at the abort; days already processed keep their updates, the offending
day and all later days are untouched. -/
def runDaysE (h : Bytes → Fingerprint) (remote : RemoteE) (cache : Cache) :
    List Nat → Except (PyFailure × Cache) (Cache × RunStats)
  | [] => .ok (cache, RunStats.zero)
  | d :: rest =>
    match remote d with
    | .error e => .error (e, cache)
    | .ok r =>
      let step := reconcileDay h r (cache d)
      let cache' : Cache := fun x => if x = d then step.1 else cache x
      match runDaysE h remote cache' rest with
      | .error p => .error p
      | .ok (cf, s) => .ok (cf, step.2.add s)

theorem retryGo_always_transient (f : Nat → Outcome α)
    (min_delay max_delay : Nat)
    (htr : ∀ k, ∃ e, f k = .err e ∧ isTransient e = true) :
    ∀ left k, 1 ≤ left →
      ∃ elast, f (k + left - 1) = .err elast ∧ isTransient elast = true ∧
        retryGo f min_delay max_delay k left =
          (.error (.retryExhausted elast), left,
           (List.range' k (left - 1)).map (wait_exponential min_delay max_delay)) := by
  intro left
  induction left with
  | zero => intro k hk; omega
  | succ l ih =>
    intro k _
    cases l with
    | zero =>
      obtain ⟨e, he, het⟩ := htr k
      exact ⟨e, by simpa using he, het, by simp [retryGo, he, het]⟩
    | succ m =>
      obtain ⟨e, he, het⟩ := htr k
      obtain ⟨elast, hel, helt, hrest⟩ := ih (k + 1) (by omega)
      refine ⟨elast, ?_, helt, ?_⟩
      · have : k + 1 + (m + 1) - 1 = k + (m + 1 + 1) - 1 := by omega
        rwa [this] at hel
      · have hrange : List.range' k (m + 1) =
            k :: List.range' (k + 1) m := List.range'_succ k m 1
        simp only [retryGo, he, het, if_pos rfl]
        rw [hrest]
        simp [hrange]

theorem with_retry_always_transient (f : Nat → Outcome α)
    (max_retries min_delay max_delay : Nat) (hmr : 1 ≤ max_retries)
    (htr : ∀ k, ∃ e, f k = .err e ∧ isTransient e = true) :
    ∃ elast, f max_retries = .err elast ∧
      with_retry f max_retries min_delay max_delay =
        (.error (.retryExhausted elast), max_retries,
         (List.range' 1 (max_retries - 1)).map
           (wait_exponential min_delay max_delay)) := by
  obtain ⟨elast, hel, _, hrun⟩ :=
    retryGo_always_transient f min_delay max_delay htr max_retries 1 hmr
  refine ⟨elast, ?_, hrun⟩
  have : 1 + max_retries - 1 = max_retries := by omega
  rwa [this] at hel

theorem with_retry_non_transient (g : Nat → Outcome α)
    (max_retries min_delay max_delay : Nat) (e0 : ErrKind)
    (hmr : 1 ≤ max_retries) (hg1 : g 1 = .err e0)
    (hg2 : isTransient e0 = false) :
    with_retry g max_retries min_delay max_delay = (.error (.raised e0), 1, []) := by
  obtain ⟨m, rfl⟩ : ∃ m, max_retries = m + 1 := ⟨max_retries - 1, by omega⟩
  cases m with
  | zero => simp [with_retry, retryGo, hg1, hg2]
  | succ l => simp [with_retry, retryGo, hg1, hg2]

theorem wait_exponential_bounded (min_delay max_delay k : Nat)
    (hdm : min_delay ≤ max_delay) :
    min_delay ≤ wait_exponential min_delay max_delay k ∧
    wait_exponential min_delay max_delay k ≤ max_delay := by
  unfold wait_exponential
  omega

/-- A fetch attempt that raises `ReadTimeoutError` (transient) every time. -/
def alwaysTimeout : Nat → Outcome (Option Bytes) := fun _ => .err .readTimeoutError

/-- A fetch attempt that raises `RuntimeError` (non-transient) every time. -/
def alwaysRuntime : Nat → Outcome (Option Bytes) := fun _ => .err .runtimeError

/-- C5, counterexample.  The claim says that after exhaustion "the last
error propagates to the caller".  tenacity's `retry` is used with its
default `reraise=False`, so what propagates is a `tenacity.RetryError`
wrapping the last attempt — not the last error itself.  Concretely, a fetch
that raises `ReadTimeoutError` on every attempt under `max_retries = 2`
ends with `RetryError(ReadTimeoutError)`, not with `ReadTimeoutError`. -/
theorem C5_counterexample :
    (with_retry alwaysTimeout 2 1 600).1 =
      .error (.retryExhausted .readTimeoutError) ∧
    (with_retry alwaysTimeout 2 1 600).1 ≠
      .error (.raised .readTimeoutError) := by
  refine ⟨rfl, ?_⟩
  have h1 : (with_retry alwaysTimeout 2 1 600).1 =
      Except.error (PyFailure.retryExhausted .readTimeoutError) := rfl
  rw [h1]
  simp only [ne_eq, Except.error.injEq]
  decide

/-- C5, amended: a fetch raising a transient-error kind on every attempt is
called exactly `max_retries` times with exponential backoff delays bounded
by `[min_delay, max_delay]`, after which a retry-exhausted failure
(tenacity `RetryError`) wrapping the last attempt's error propagates to the
caller, and no cache write occurs for the offending day (the run aborts
with the cache exactly as it was); only the configured transient-error
kinds (`ReadTimeoutError`, `MaxRetryError`, `ConnectionError`) trigger a
retry — a non-transient error propagates as itself after a single call. -/
theorem C5_retry_bounded (f g : Nat → Outcome (Option Bytes))
    (max_retries min_delay max_delay : Nat) (e0 : ErrKind) (pf : PyFailure)
    (h : Bytes → Fingerprint) (cache : Cache) (d : Nat) (rest : List Nat)
    (hmr : 1 ≤ max_retries) (hdm : min_delay ≤ max_delay)
    (htr : ∀ k, ∃ e, f k = .err e ∧ isTransient e = true)
    (hg1 : g 1 = .err e0) (hg2 : isTransient e0 = false) :
    (∃ elast, f max_retries = .err elast ∧
      with_retry f max_retries min_delay max_delay =
        (.error (.retryExhausted elast), max_retries,
         (List.range' 1 (max_retries - 1)).map
           (wait_exponential min_delay max_delay))) ∧
    ((List.range' 1 (max_retries - 1)).map
        (wait_exponential min_delay max_delay)).all
      (fun dl => decide (min_delay ≤ dl) && decide (dl ≤ max_delay)) = true ∧
    with_retry g max_retries min_delay max_delay = (.error (.raised e0), 1, []) ∧
    runDaysE h (fun x => if x = d then .error pf else .ok none) cache
      (d :: rest) = .error (pf, cache) := by
  refine ⟨with_retry_always_transient f max_retries min_delay max_delay hmr htr,
    ?_, with_retry_non_transient g max_retries min_delay max_delay e0 hmr hg1 hg2,
    ?_⟩
  · rw [List.all_eq_true]
    intro x hx
    rw [List.mem_map] at hx
    obtain ⟨k, _, rfl⟩ := hx
    have hb := wait_exponential_bounded min_delay max_delay k hdm
    simp [hb.1, hb.2]
  · simp [runDaysE]

/-- C5 witness: the amended statement at `max_retries = 3`,
`[min_delay, max_delay] = [1, 600]`, an always-`ReadTimeoutError` fetch, a
`RuntimeError`-raising fetch, and a one-day run aborting on day 0. -/
theorem C5_witness :
    (∃ elast, alwaysTimeout 3 = .err elast ∧
      with_retry alwaysTimeout 3 1 600 =
        (.error (.retryExhausted elast), 3,
         (List.range' 1 (3 - 1)).map (wait_exponential 1 600))) ∧
    ((List.range' 1 (3 - 1)).map (wait_exponential 1 600)).all
      (fun dl => decide (1 ≤ dl) && decide (dl ≤ 600)) = true ∧
    with_retry alwaysRuntime 3 1 600 =
      (.error (.raised .runtimeError), 1, []) ∧
    runDaysE id (fun x => if x = 0 then
        .error (.retryExhausted .readTimeoutError) else .ok none)
      initialCache [0] =
      .error (.retryExhausted .readTimeoutError, initialCache) :=
  C5_retry_bounded alwaysTimeout alwaysRuntime 3 1 600 ErrKind.runtimeError
    (.retryExhausted .readTimeoutError) id initialCache 0 []
    (by decide) (by decide)
    (fun k => ⟨ErrKind.readTimeoutError, rfl, rfl⟩) rfl rfl

/-! ## Claim C7: the earlier flat-file variant (src/src/base_prices.py,
`BasePrices.retrieve_prices` lines 48-97 and `parse_and_save`).

That variant keeps a DataFrame-shaped view of a day: a locally cached flat
file is re-read with `pd.read_csv(path, compression="gzip")` (line 68,
which raises on unparseable compressed content and is not wrapped in any
handler), while an uncached day is fetched through a DataFrame-returning
fetch helper.  The fetch helper this file imports is not present in
src/src/utils.py (only this caller is), so it is modelled from the spec
below. -/

/-- A row of a raw minute-aggregates flat file.  Columns as published in
the vendor's flat files: `ticker`, `volume`, `open`, `close`, `high`,
`low`, `window_start` (Unix nanoseconds), `transactions`.  `open` is a Lean
keyword, hence the field name `open_`. -/
structure RawRow where
  window_start : Nat
  ticker : String
  open_ : Int
  close : Int
  low : Int
  high : Int
  volume : Int
  transactions : Int
  deriving Repr, DecidableEq

/-- A compressed day payload as stored locally or remotely: either content
that parses into a list of rows, or unparseable (malformed/corrupt) bytes. -/
inductive Payload
  | wellFormed (rows : List RawRow)
  | malformed
  deriving Repr, DecidableEq

/-- The single error kind of this fragment: pandas raising on unparseable
compressed content. -/
inductive ParseErr
  | unparseable
  deriving Repr, DecidableEq

/-- `pd.read_csv(path, compression="gzip")` on a cached payload (an
external library call): yields the rows of a well-formed payload and
raises on a malformed one. -/
def read_csv_gz : Payload → Except ParseErr (List RawRow)
  | .wellFormed rows => .ok rows
  | .malformed => .error .unparseable

/-- Modelled from the spec: the DataFrame-returning remote fetch that
`src/src/base_prices.py` imports from `src.utils` but that is absent from
src (the `get_file_from_s3` now in src/src/utils.py returns raw bytes for
the consolidated variant instead).  Per the spec, a missing remote object
or a malformed remote payload is surfaced as an empty result for the day
(logged) and treated as if no data were available; a well-formed payload
yields its rows. -/
def fetch_day_frame : Option Payload → List RawRow
  | none => []
  | some (.wellFormed rows) => rows
  | some .malformed => []

/-- The day state of the old variant's raw cache. -/
structure DayCacheOld where
  raw : Option Payload
  marker : Bool
  deriving Repr, DecidableEq

/-- One day of the old variant's `retrieve_prices` loop (lines 61-94),
for a day whose per-ticker derived files are not all present yet
(`all_tickers_have_data` false): a locally cached flat file is re-read
with `pd.read_csv` (whose parse error propagates and crashes the run); an
empty marker yields an empty frame; otherwise the day is fetched, a
non-empty frame is saved as the flat file and an empty frame produces the
empty marker.  Returns the new cache state, the day's frame (handed to
`parse_and_save`), and the number of raw-cache writes. -/
def retrieve_day_flat (c : DayCacheOld) (remotePayload : Option Payload) :
    Except ParseErr (DayCacheOld × List RawRow × Nat) :=
  match c.raw with
  | some p =>
    match read_csv_gz p with
    | .error e => .error e
    | .ok rows => .ok (c, rows, 0)
  | none =>
    if c.marker then .ok (c, [], 0)
    else
      let data := fetch_day_frame remotePayload
      if data.isEmpty then .ok ({ c with marker := true }, data, 1)
      else .ok ({ c with raw := some (.wellFormed data) }, data, 1)

/-- C7, counterexample.  The claim says a malformed local or remote
compressed payload never raises an exception that crashes the run.  For a
malformed locally cached payload, the old variant calls
`pd.read_csv(flat_file_path, compression="gzip")` with no exception
handler, so the parse error propagates and the run crashes. -/
theorem C7_counterexample :
    retrieve_day_flat ⟨some .malformed, false⟩ none = .error .unparseable := rfl

/-- C7, amended: a malformed remote payload is surfaced as an empty result
for the day (logged), does not raise, and performs no flat-file write —
the day is treated as having no data, which writes the empty marker; a
malformed locally cached payload, however, raises an unparseable-content
error that propagates and crashes the run (no cache write occurs for that
day either). -/
theorem C7_malformed_payload (c : DayCacheOld) :
    (c.raw = none → c.marker = false →
      retrieve_day_flat c (some .malformed) =
        .ok ({ c with marker := true }, [], 1)) ∧
    (∀ p, c.raw = some p → read_csv_gz p = .error .unparseable →
      retrieve_day_flat c (some .malformed) = .error .unparseable ∧
      retrieve_day_flat c none = .error .unparseable) := by
  constructor
  · intro hraw hmk
    simp [retrieve_day_flat, hraw, hmk, fetch_day_frame]
  · intro p hraw hp
    constructor <;> simp [retrieve_day_flat, hraw, hp]

/-- C7 witness: the amended statement at the absent day state (for the
remote-malformed branch) and at the malformed-local state. -/
theorem C7_witness :
    (retrieve_day_flat ⟨none, false⟩ (some .malformed) =
      .ok (⟨none, true⟩, [], 1)) ∧
    retrieve_day_flat ⟨some .malformed, true⟩ (some .malformed) =
        .error .unparseable ∧
      retrieve_day_flat ⟨some .malformed, true⟩ none = .error .unparseable :=
  ⟨(C7_malformed_payload ⟨none, false⟩).1 rfl rfl,
   (C7_malformed_payload ⟨some .malformed, true⟩).2 Payload.malformed rfl rfl⟩

/-! ## Claim C9: options ticker filtering and per-ticker derivation
(`OptionPrices.filter_ticker_data`, src/src/prices/options.py lines 21-23,
and `BasePrices.parse_and_save`, src/src/base_prices.py lines 99-125).

`parse_and_save` converts `window_start` (Unix nanoseconds) to a timestamp
with `pd.to_datetime(..., unit="ns", utc=True).dt.tz_convert(...)`, a
strictly monotone injective conversion; timestamps are therefore
represented here by their nanosecond value.  The frame is then indexed and
sorted by timestamp, filtered per ticker, and reduced to the columns
{ticker, open, close, low, high, volume} (plus the timestamp index). -/

/-- A flat-file row after the `window_start` → `timestamp` conversion
(`parse_and_save` lines 113-118); all other columns still present. -/
structure TsRow where
  timestamp : Nat
  ticker : String
  open_ : Int
  close : Int
  low : Int
  high : Int
  volume : Int
  transactions : Int
  deriving Repr, DecidableEq

/-- A row of the derived per-ticker table: timestamp index plus the columns
{ticker, open, close, low, high, volume} (`parse_and_save` line 122). -/
structure PriceRow where
  timestamp : Nat
  ticker : String
  open_ : Int
  close : Int
  low : Int
  high : Int
  volume : Int
  deriving Repr, DecidableEq

/-- The timestamp conversion applied to one row. -/
def convertTimestamp (r : RawRow) : TsRow :=
  ⟨r.window_start, r.ticker, r.open_, r.close, r.low, r.high, r.volume,
   r.transactions⟩

/-- Timestamp order on converted rows (the sort key of
`set_index("timestamp").sort_index()`). -/
def tsLe (a b : TsRow) : Prop := a.timestamp ≤ b.timestamp

instance : DecidableRel tsLe := fun a b => Nat.decLe a.timestamp b.timestamp

instance : IsTotal TsRow tsLe := ⟨fun a b => Nat.le_total a.timestamp b.timestamp⟩

instance : IsTrans TsRow tsLe := ⟨fun _ _ _ h1 h2 => Nat.le_trans h1 h2⟩

/-- Timestamp order on derived rows. -/
def priceLe (a b : PriceRow) : Prop := a.timestamp ≤ b.timestamp

/-- Embedding of `OptionPrices.filter_ticker_data`
(src/src/prices/options.py lines 21-23): keep the rows whose `ticker`
column starts with `"O:" + ticker` (option contracts of that underlying,
e.g. `O:SPY240105C00485000`). -/
def OptionPrices.filter_ticker_data (data : List TsRow) (ticker : String) :
    List TsRow :=
  data.filter (fun r => r.ticker.startsWith ("O:" ++ ticker))

/-- Column reduction of `parse_and_save` line 122:
`ticker_data[["ticker", "open", "close", "low", "high", "volume"]]` on the
timestamp-indexed frame. -/
def reduceColumns (r : TsRow) : PriceRow :=
  ⟨r.timestamp, r.ticker, r.open_, r.close, r.low, r.high, r.volume⟩

/-- The per-ticker pipeline of `parse_and_save` (src/src/base_prices.py
lines 111-125) for one options ticker: convert `window_start` to the
timestamp, sort the whole day's frame by timestamp, filter with
`filter_ticker_data`, and reduce the columns.  (The sort is modelled with
insertion sort; the claim constrains only sortedness and content.) -/
def parse_and_save_ticker (data : List RawRow) (ticker : String) :
    List PriceRow :=
  (OptionPrices.filter_ticker_data
      ((data.map convertTimestamp).insertionSort tsLe) ticker).map reduceColumns

/-- C9: the options ticker filter returns exactly the rows whose ticker
starts with `"O:" + T` (membership characterization), and the derived
per-ticker table is sorted ascending by timestamp and consists, up to
order, of exactly the matching raw rows converted and reduced to the
columns {timestamp, ticker, open, close, low, high, volume}. -/
theorem C9_options_ticker_filter (rows : List TsRow) (data : List RawRow)
    (t : String) (r : TsRow) :
    (r ∈ OptionPrices.filter_ticker_data rows t ↔
      r ∈ rows ∧ r.ticker.startsWith ("O:" ++ t) = true) ∧
    List.Sorted priceLe (parse_and_save_ticker data t) ∧
    (parse_and_save_ticker data t).Perm
      ((data.filter (fun x => x.ticker.startsWith ("O:" ++ t))).map
        (fun x => reduceColumns (convertTimestamp x))) := by
  refine ⟨?_, ?_, ?_⟩
  · simp [OptionPrices.filter_ticker_data, List.mem_filter]
  · have hs : List.Sorted tsLe ((data.map convertTimestamp).insertionSort tsLe) :=
      List.sorted_insertionSort tsLe _
    have hfs : List.Sorted tsLe (OptionPrices.filter_ticker_data
        ((data.map convertTimestamp).insertionSort tsLe) t) :=
      List.Pairwise.sublist (List.filter_sublist _) hs
    exact List.Pairwise.map reduceColumns (fun a b hab => hab) hfs
  · have h1 : ((data.map convertTimestamp).insertionSort tsLe).Perm
        (data.map convertTimestamp) := List.perm_insertionSort tsLe _
    have h2 := (h1.filter (fun r => r.ticker.startsWith ("O:" ++ t))).map
      reduceColumns
    have h3 : (data.map convertTimestamp).filter
          (fun r => r.ticker.startsWith ("O:" ++ t)) =
        (data.filter (fun x => x.ticker.startsWith ("O:" ++ t))).map
          convertTimestamp := List.filter_map convertTimestamp data
    rw [h3, List.map_map] at h2
    exact h2

/-! ## Claim C10: constructing the consolidated per-asset classes
(src/src/prices/{stocks,options,forex,crypto}.py) fails with `TypeError`.

Each subclass `__init__` forwards `tickers=...` (together with the other
keyword arguments) to `super().__init__`, but the consolidated
`BasePrices.__init__` (src/src/prices/base.py lines 23-36) has parameters
`(self, date_start, date_end, asset_type, s3_prefix, available_from)` —
no `tickers` parameter and no `**kwargs` — so Python raises `TypeError:
unexpected keyword argument` during construction, before any retrieval
can start.  Keyword binding is modelled on parameter-name lists. -/

/-- The error a Python call raises when keyword binding fails. -/
inductive PyCallErr
  | typeError
  deriving Repr, DecidableEq

/-- Python keyword binding for a parameter list without defaults or
`**kwargs`: the call succeeds iff every supplied keyword names a parameter
and every parameter is supplied; otherwise `TypeError`. -/
def bind_init_call (params kwargs : List String) : Except PyCallErr Unit :=
  if (kwargs.all fun k => params.contains k) &&
      (params.all fun p => kwargs.contains p) then .ok ()
  else .error .typeError

/-- Parameters of the consolidated `BasePrices.__init__`
(src/src/prices/base.py lines 23-30), `self` excluded. -/
def basePricesInitParams : List String :=
  ["date_start", "date_end", "asset_type", "s3_prefix", "available_from"]

/-- Keywords `StockPrices.__init__` passes to `super().__init__`
(src/src/prices/stocks.py lines 12-19). -/
def stockPricesSuperKwargs : List String :=
  ["tickers", "date_start", "date_end", "asset_type", "s3_prefix",
   "available_from"]

/-- Keywords `OptionPrices.__init__` passes to `super().__init__`
(src/src/prices/options.py lines 12-19). -/
def optionPricesSuperKwargs : List String :=
  ["tickers", "date_start", "date_end", "asset_type", "s3_prefix",
   "available_from"]

/-- Keywords `ForexPrices.__init__` passes to `super().__init__`
(src/src/prices/forex.py lines 12-19). -/
def forexPricesSuperKwargs : List String :=
  ["tickers", "date_start", "date_end", "asset_type", "s3_prefix",
   "available_from"]

/-- Keywords `CryptoPrices.__init__` passes to `super().__init__`
(src/src/prices/crypto.py lines 12-19). -/
def cryptoPricesSuperKwargs : List String :=
  ["date_start", "date_end", "asset_type", "s3_prefix", "available_from",
   "tickers"]

/-- C10: each of the four consolidated subclasses passes the keyword
`tickers`, which the consolidated `BasePrices.__init__` does not accept,
so construction raises `TypeError` for all of them (before any retrieval
begins). -/
theorem C10_constructors_type_error :
    bind_init_call basePricesInitParams stockPricesSuperKwargs =
      .error .typeError ∧
    bind_init_call basePricesInitParams optionPricesSuperKwargs =
      .error .typeError ∧
    bind_init_call basePricesInitParams forexPricesSuperKwargs =
      .error .typeError ∧
    bind_init_call basePricesInitParams cryptoPricesSuperKwargs =
      .error .typeError ∧
    "tickers" ∈ stockPricesSuperKwargs ∧
    "tickers" ∈ optionPricesSuperKwargs ∧
    "tickers" ∈ forexPricesSuperKwargs ∧
    "tickers" ∈ cryptoPricesSuperKwargs ∧
    "tickers" ∉ basePricesInitParams := by
  refine ⟨rfl, rfl, rfl, rfl, by decide, by decide, by decide, by decide,
    by decide⟩
